import Mathlib

/-!
Verification of the trajectory-collection orchestrator in
`polish/env/parallel_env.py` (class `ParallelEnv`).

The embedding is shallow:
* NumPy arrays become `NpArray β`, a list of values tagged with a `Dtype`.
  Values themselves are kept opaque (type parameters `σ` for observations,
  `α` for scalar numeric values); a dtype coercion changes the tag only.
  `np.asarray(xs, dtype=t)` becomes `asarray xs t`; `np.concatenate`
  promotes dtypes by NumPy's `result_type` rules (modelled by `promote`
  on the dtype pairs that actually occur here).
* Episode lengths are natural numbers (they count timesteps), so the
  `int(l)` coercion in `process_trajectory_lengths` is the identity, and
  Python's `max_steps - sum(...)` agrees with truncated subtraction on ℕ
  whenever the buffer invariant `sum(per_episode_lengths) ≤ max_steps`
  holds (the regime of every claim below).
* The two `MCTSEnv` collaborators (`master_game`, `mcts_game`) live in
  `polish/env/env.py`, which is not part of the sources under review;
  their rollouts enter `play` as oracle inputs (`PlayInput`), and their
  running-statistics objects are modelled by object identities (`Nat`).
* Python float configuration fractions are modelled as rationals;
  `int(x)` on them is truncation toward zero (`pyInt`) and Python's
  banker's `round` is `pyRound`.
-/

set_option autoImplicit false

namespace Polish

/-- NumPy dtypes that occur in `parallel_env.py`: the environment's
observation dtype, 32/64-bit floats, 64-bit ints, booleans, and a marker
for a plain (not yet converted) Python list. -/
inductive Dtype where
  | obsDt : Dtype
  | f32 : Dtype
  | f64 : Dtype
  | i64 : Dtype
  | boolDt : Dtype
  | pylist : Dtype
deriving DecidableEq, Repr

/-- `np.result_type` on the dtype pairs that arise in this file: any mix
of 32-bit floats with 64-bit floats or ints promotes to 64-bit float;
equal dtypes are fixed points. -/
def promote : Dtype → Dtype → Dtype
  | .f32, .f64 => .f64
  | .f64, .f32 => .f64
  | .f32, .i64 => .f64
  | .i64, .f32 => .f64
  | .f64, .i64 => .f64
  | .i64, .f64 => .f64
  | t, _ => t

/-- A NumPy array: element values plus a dtype tag.  Dtype coercions are
representation-level, so they change the tag and keep the values. -/
structure NpArray (β : Type) where
  dtype : Dtype
  data : List β
deriving DecidableEq, Repr

/-- `np.asarray(xs, dtype = t)`. -/
def asarray {β : Type} (xs : List β) (t : Dtype) : NpArray β := ⟨t, xs⟩

/-- A freshly cleared attribute: the Python list `[]`. -/
def emptyArr {β : Type} : NpArray β := ⟨.pylist, []⟩

/-- The per-rollout buffer exposed by an `MCTSEnv` game
(`trajectory_*` attributes filled by `run_trajectory` /
`run_mcts_trajectory`).  These are plain Python lists. -/
structure GameBuffer (σ α : Type) where
  trajectory_states : List σ
  trajectory_actions : List α
  trajectory_values : List α
  trajectory_neg_logprobs : List α
  trajectory_means : List α
  trajectory_logstds : List α
  trajectory_per_episode_rewards : List α
  trajectory_per_episode_lengths : List Nat
  trajectory_dones : List Bool
  trajectory_per_step_rewards : List α
  trajectory_returns : List α
deriving DecidableEq, Repr

/-- The all-empty game buffer. -/
def GameBuffer.empty {σ α : Type} : GameBuffer σ α :=
  ⟨[], [], [], [], [], [], [], [], [], [], []⟩

/-- The state of a `ParallelEnv` instance: configuration, scheduling
state, the running-statistics references of the two games (object
identities), the eleven `trajectory_*` attributes (Current-Step Dataset)
and the six `policy_trajectory_*` attributes (Policy Dataset). -/
structure PEState (σ α : Type) where
  len_segment : Int
  sampling_step : Nat
  mcts_start_step : Int
  mcts_end_step : Int
  mcts_enable : Bool
  mcts_sampling : Bool
  mcts_collect_data_freq : Int
  first_mcts : Bool
  master_ob_rms : Nat
  master_ret_rms : Nat
  mcts_ob_rms : Nat
  mcts_ret_rms : Nat
  trajectory_states : NpArray σ
  trajectory_actions : NpArray α
  trajectory_values : NpArray α
  trajectory_neg_logprobs : NpArray α
  trajectory_means : NpArray α
  trajectory_logstds : NpArray α
  trajectory_per_episode_rewards : NpArray α
  trajectory_per_episode_lengths : NpArray Nat
  trajectory_dones : NpArray Bool
  trajectory_per_step_rewards : NpArray α
  trajectory_returns : NpArray α
  policy_trajectory_states : NpArray σ
  policy_trajectory_values : NpArray α
  policy_trajectory_actions : NpArray α
  policy_trajectory_returns : NpArray α
  policy_trajectory_neg_logprobs : NpArray α
  policy_trajectory_per_step_rewards : NpArray α
deriving DecidableEq, Repr

variable {σ α : Type}

/-- Source method `initialize_episode_data`: reset the eleven
`trajectory_*` attributes to empty Python lists. -/
def init_episode_data (s : PEState σ α) : PEState σ α :=
  { s with
    trajectory_states := emptyArr
    trajectory_actions := emptyArr
    trajectory_values := emptyArr
    trajectory_neg_logprobs := emptyArr
    trajectory_means := emptyArr
    trajectory_logstds := emptyArr
    trajectory_per_episode_rewards := emptyArr
    trajectory_per_episode_lengths := emptyArr
    trajectory_dones := emptyArr
    trajectory_per_step_rewards := emptyArr
    trajectory_returns := emptyArr }

/-- Source method `initialize_policy_episode_data`: reset the six
`policy_trajectory_*` attributes to empty Python lists. -/
def init_policy_episode_data (s : PEState σ α) : PEState σ α :=
  { s with
    policy_trajectory_states := emptyArr
    policy_trajectory_values := emptyArr
    policy_trajectory_actions := emptyArr
    policy_trajectory_returns := emptyArr
    policy_trajectory_neg_logprobs := emptyArr
    policy_trajectory_per_step_rewards := emptyArr }

/-- Source method `mcts_sample_enable`. -/
def mcts_sample_enable (s : PEState σ α) : Bool :=
  s.mcts_enable &&
    decide (s.mcts_start_step ≤ (s.sampling_step : Int) ∧
            (s.sampling_step : Int) < s.mcts_end_step)

/-- Source method `process_trajectory_lengths`, with the `game` argument
replaced by its two consulted buffer fields.  `game.trajectory_dones[-1]`
is `dones.getLastD false` (the source is only called with a non-empty
`dones`); the `int(l)` coercion is the identity on ℕ. -/
def process_trajectory_lengths (dones : List Bool)
    (per_episode_lengths : List Nat) (max_steps : Nat) : List Nat :=
  if dones.getLastD false then
    per_episode_lengths
  else if 0 < per_episode_lengths.length then
    per_episode_lengths ++ [max_steps - per_episode_lengths.sum]
  else
    [max_steps]

/-- `num_inits = int(math.ceil(float(len_trajectory) / len_segment))`
from `play`, for a positive `len_segment` (ceiling division on ℕ). -/
def num_inits (len_trajectory U : Nat) : Nat := (len_trajectory + U - 1) / U

/-- The per-sub-span horizons of one segment in `play`:
`init_state_interval = len_segment` for the first `num_inits - 1`
sub-spans, `last_state_interval` for the last one. -/
def sub_span_horizons (len_trajectory U : Nat) : List Nat :=
  (List.range (num_inits len_trajectory U)).map fun i =>
    if i < num_inits len_trajectory U - 1 then U
    else len_trajectory - (num_inits len_trajectory U - 1) * U

/-- The full plan of the search loop in `play`: for each segment (in
order), the pairs `(base_len + init_state_interval * i, horizon)` of the
initialization index into the master trajectory and the rollout horizon,
with `base_len` accumulating the preceding segment lengths. -/
def sub_span_plan : List Nat → Nat → Nat → List (Nat × Nat)
  | [], _, _ => []
  | len_trajectory :: rest, U, base_len =>
    ((List.range (num_inits len_trajectory U)).map fun i =>
      (base_len + U * i,
       if i < num_inits len_trajectory U - 1 then U
       else len_trajectory - (num_inits len_trajectory U - 1) * U))
    ++ sub_span_plan rest U (base_len + len_trajectory)

/-- One attribute update of `aggregate_mcts_data`: when `mcts_sampling`
and the stored attribute is non-empty, `np.concatenate` with the mcts
game's list (value concatenation, dtype promoted against the list's
native conversion dtype); when it is empty, `np.asarray(mcts, dtype)`;
when not `mcts_sampling`, `np.asarray(master, dtype)`. -/
def agg_attr {β : Type} (mcts_sampling : Bool) (old : NpArray β)
    (mcts_val master_val : List β) (data_type native : Dtype) : NpArray β :=
  if mcts_sampling then
    if 0 < old.data.length then
      ⟨promote old.dtype native, old.data ++ mcts_val⟩
    else
      asarray mcts_val data_type
  else
    asarray master_val data_type

/-- Source method `aggregate_mcts_data`, with the two games' buffers
passed explicitly.  Fixed dtypes are those of the source's
`data_attr_types` table.

Modelled from the spec: the native conversion dtypes of the mcts game's
Python lists come from the spec's data model (`polish/env/env.py` is not
among the sources) — observations keep the observation dtype, scalar
floats convert to 64-bit floats, episode lengths to 64-bit ints, dones
to booleans. -/
def aggregate_mcts_data (s : PEState σ α) (master mcts : GameBuffer σ α) :
    PEState σ α :=
  { s with
    trajectory_states := agg_attr s.mcts_sampling s.trajectory_states
      mcts.trajectory_states master.trajectory_states .obsDt .obsDt
    trajectory_actions := agg_attr s.mcts_sampling s.trajectory_actions
      mcts.trajectory_actions master.trajectory_actions .f32 .f64
    trajectory_values := agg_attr s.mcts_sampling s.trajectory_values
      mcts.trajectory_values master.trajectory_values .f32 .f64
    trajectory_neg_logprobs := agg_attr s.mcts_sampling s.trajectory_neg_logprobs
      mcts.trajectory_neg_logprobs master.trajectory_neg_logprobs .f32 .f64
    trajectory_means := agg_attr s.mcts_sampling s.trajectory_means
      mcts.trajectory_means master.trajectory_means .f32 .f64
    trajectory_logstds := agg_attr s.mcts_sampling s.trajectory_logstds
      mcts.trajectory_logstds master.trajectory_logstds .f32 .f64
    trajectory_per_episode_rewards := agg_attr s.mcts_sampling
      s.trajectory_per_episode_rewards mcts.trajectory_per_episode_rewards
      master.trajectory_per_episode_rewards .f32 .f64
    trajectory_per_episode_lengths := agg_attr s.mcts_sampling
      s.trajectory_per_episode_lengths mcts.trajectory_per_episode_lengths
      master.trajectory_per_episode_lengths .f32 .i64
    trajectory_dones := agg_attr s.mcts_sampling s.trajectory_dones
      mcts.trajectory_dones master.trajectory_dones .boolDt .boolDt
    trajectory_per_step_rewards := agg_attr s.mcts_sampling
      s.trajectory_per_step_rewards mcts.trajectory_per_step_rewards
      master.trajectory_per_step_rewards .f32 .f64
    trajectory_returns := agg_attr s.mcts_sampling s.trajectory_returns
      mcts.trajectory_returns master.trajectory_returns .f32 .f64 }

/-- Source method `aggregate_policy_data`: each `policy_trajectory_*`
attribute is `np.asarray` of the master game's attribute of the same
name without the `policy_` part (`data_attr.split` in the source). -/
def aggregate_policy_data (s : PEState σ α) (master : GameBuffer σ α) :
    PEState σ α :=
  { s with
    policy_trajectory_states := asarray master.trajectory_states .obsDt
    policy_trajectory_actions := asarray master.trajectory_actions .f32
    policy_trajectory_values := asarray master.trajectory_values .f32
    policy_trajectory_neg_logprobs := asarray master.trajectory_neg_logprobs .f32
    policy_trajectory_per_step_rewards :=
      asarray master.trajectory_per_step_rewards .f32
    policy_trajectory_returns := asarray master.trajectory_returns .f32 }

/-- The frequency gate in `play`:
`(sampling_step - mcts_start_step) % mcts_collect_data_freq == 0`
(Euclidean remainder, which agrees with Python `%` for the positive
`mcts_collect_data_freq` of every claim). -/
def collect_gate (s : PEState σ α) : Bool :=
  decide ((((s.sampling_step : Int) - s.mcts_start_step) %
           s.mcts_collect_data_freq) = 0)

/-- The one-time statistics hand-off in `play`: on the first eligible
step, rebind the mcts game's `_ob_rms` / `_ret_rms` to the master
game's objects and clear the guard. -/
def rms_handoff_update (s : PEState σ α) : PEState σ α :=
  if s.first_mcts then
    { s with
      mcts_ob_rms := s.master_ob_rms
      mcts_ret_rms := s.master_ret_rms
      first_mcts := false }
  else s

/-- A sequence of `aggregate_mcts_data` calls after successive search
rollouts `bufs`, as performed by the search loop of `play`. -/
def aggregate_fold (s : PEState σ α) (master : GameBuffer σ α)
    (bufs : List (GameBuffer σ α)) : PEState σ α :=
  bufs.foldl (fun st b => aggregate_mcts_data st master b) s

/-- The external inputs consumed by one `play` call: the master game's
rollout buffer (filled by `run_trajectory`), its `env_states`, and the
mcts game's rollout as an oracle from `(init_state, init_action,
max_horizon)` to the buffer filled by `run_mcts_trajectory`.  The
defaults stand for Python's out-of-range behaviour; the safety claim
shows every index is in bounds, so they are never consulted there. -/
structure PlayInput (σ α : Type) where
  master : GameBuffer σ α
  env_states : List σ
  mcts_run : σ → α → Nat → GameBuffer σ α
  default_state : σ
  default_action : α

/-- Observable events of one `play` call. -/
structure PlayEvents where
  rms_handoff : Bool
deriving DecidableEq, Repr

/-- Source method `play`, as a state transition on `PEState` (the calls
into the collaborators that do not touch the modelled state —
`update_estimator`, `reset`, the games' own buffer clearing — are
absorbed into the oracle inputs).  In the non-sampling branch of
`aggregate_mcts_data` the mcts game's buffer is not consulted, so
`GameBuffer.empty` is passed there (see
`aggregate_mcts_data_indep_of_mcts`).  `len_segment.toNat` is faithful
for the positive `len_segment` of every claim (Python raises on 0). -/
def play (s : PEState σ α) (max_steps : Nat) (inp : PlayInput σ α) :
    PEState σ α × PlayEvents :=
  if mcts_sample_enable s = false then
    let s1 := { init_policy_episode_data (init_episode_data s) with
                mcts_sampling := false }
    let s2 := aggregate_policy_data
      (aggregate_mcts_data s1 inp.master GameBuffer.empty) inp.master
    ({ s2 with sampling_step := s2.sampling_step + 1 }, ⟨false⟩)
  else
    let handoff := s.first_mcts
    let s1 := rms_handoff_update s
    if collect_gate s1 then
      let s2 := { init_policy_episode_data (init_episode_data s1) with
                  mcts_sampling := true }
      let len_trajectories := process_trajectory_lengths
        inp.master.trajectory_dones inp.master.trajectory_per_episode_lengths
        max_steps
      let plan := sub_span_plan len_trajectories s2.len_segment.toNat 0
      let bufs := plan.map fun p =>
        inp.mcts_run (inp.env_states.getD p.1 inp.default_state)
          (inp.master.trajectory_actions.getD p.1 inp.default_action) p.2
      let s3 := aggregate_fold s2 inp.master bufs
      let s4 := aggregate_policy_data s3 inp.master
      ({ s4 with sampling_step := s4.sampling_step + 1 }, ⟨handoff⟩)
    else
      ({ s1 with sampling_step := s1.sampling_step + 1 }, ⟨handoff⟩)

/-- A sequence of `play` calls, returning the final state and the list
of hand-off events in call order. -/
def play_trace (s : PEState σ α) (max_steps : Nat) :
    List (PlayInput σ α) → PEState σ α × List Bool
  | [] => (s, [])
  | inp :: rest =>
    let r := play s max_steps inp
    let t := play_trace r.1 max_steps rest
    (t.1, r.2.rms_handoff :: t.2)

/-- The configuration surface of `ParallelEnv.__init__` consulted by the
claims.  The float fractions are rationals. -/
structure Config where
  len_segment : Int
  mcts_enable : Bool
  mcts_start_step_frac : ℚ
  mcts_end_step_frac : ℚ
  num_iterations : Nat
  mcts_collect_data_freq : Int
deriving DecidableEq, Repr

/-- Python `int()` on a rational: truncation toward zero. -/
def pyInt (q : ℚ) : Int := if q < 0 then ⌈q⌉ else ⌊q⌋

/-- Python 3 `round()` on a rational: nearest integer, ties to even. -/
def pyRound (q : ℚ) : Int :=
  if q - ⌊q⌋ < 1/2 then ⌊q⌋
  else if (1 : ℚ)/2 < q - ⌊q⌋ then ⌊q⌋ + 1
  else if 2 ∣ ⌊q⌋ then ⌊q⌋ else ⌊q⌋ + 1

/-- `mcts_sample_enable` as it would read at sampling step `k`: the
window test against a state's (immutable) configuration. -/
def eligible_at (s : PEState σ α) (k : Nat) : Bool :=
  s.mcts_enable &&
    decide (s.mcts_start_step ≤ (k : Int) ∧ (k : Int) < s.mcts_end_step)

/-- Source constructor `ParallelEnv.__init__` restricted to the modelled
state: it stores the configuration verbatim — with
`mcts_start_step = int(mcts_start_step_frac * num_iterations)` and
likewise for the end step — clears both datasets, and performs no
validation of the configuration.  The two games' statistics objects get
four distinct identities. -/
def parallel_env_init (cfg : Config) : PEState σ α :=
  init_policy_episode_data (init_episode_data
  { len_segment := cfg.len_segment
    sampling_step := 0
    mcts_start_step := pyInt (cfg.mcts_start_step_frac * cfg.num_iterations)
    mcts_end_step := pyInt (cfg.mcts_end_step_frac * cfg.num_iterations)
    mcts_enable := cfg.mcts_enable
    mcts_sampling := false
    mcts_collect_data_freq := cfg.mcts_collect_data_freq
    first_mcts := true
    master_ob_rms := 0
    master_ret_rms := 1
    mcts_ob_rms := 2
    mcts_ret_rms := 3
    trajectory_states := emptyArr
    trajectory_actions := emptyArr
    trajectory_values := emptyArr
    trajectory_neg_logprobs := emptyArr
    trajectory_means := emptyArr
    trajectory_logstds := emptyArr
    trajectory_per_episode_rewards := emptyArr
    trajectory_per_episode_lengths := emptyArr
    trajectory_dones := emptyArr
    trajectory_per_step_rewards := emptyArr
    trajectory_returns := emptyArr
    policy_trajectory_states := emptyArr
    policy_trajectory_values := emptyArr
    policy_trajectory_actions := emptyArr
    policy_trajectory_returns := emptyArr
    policy_trajectory_neg_logprobs := emptyArr
    policy_trajectory_per_step_rewards := emptyArr })

/-- In the non-sampling branch, `aggregate_mcts_data` never consults the
mcts game's buffer (justifying the `GameBuffer.empty` argument in
`play`). -/
theorem aggregate_mcts_data_indep_of_mcts (s : PEState σ α)
    (master mcts mcts' : GameBuffer σ α) (h : s.mcts_sampling = false) :
    aggregate_mcts_data s master mcts = aggregate_mcts_data s master mcts' := by
  simp [aggregate_mcts_data, agg_attr, h]

/-! ## Basic lemmas about the aggregators -/

/-- In search mode an `agg_attr` step always appends the mcts game's
values to the stored values (both the concatenation branch and the
initialization-from-empty branch do). -/
theorem agg_attr_data {β : Type} (old : NpArray β) (mcts_val master_val : List β)
    (dt nd : Dtype) :
    (agg_attr true old mcts_val master_val dt nd).data = old.data ++ mcts_val := by
  unfold agg_attr
  by_cases h : 0 < old.data.length
  · simp [h]
  · have : old.data = [] := by
      cases hd : old.data with
      | nil => rfl
      | cons a l => rw [hd] at h; simp at h
    simp [h, this, asarray]

/-- `aggregate_mcts_data` updates only the eleven `trajectory_*`
attributes; `aggregate_fold` therefore preserves every other field. -/
theorem aggregate_fold_proj (master : GameBuffer σ α)
    (bufs : List (GameBuffer σ α)) : ∀ s : PEState σ α,
    (aggregate_fold s master bufs).len_segment = s.len_segment ∧
    (aggregate_fold s master bufs).sampling_step = s.sampling_step ∧
    (aggregate_fold s master bufs).mcts_start_step = s.mcts_start_step ∧
    (aggregate_fold s master bufs).mcts_end_step = s.mcts_end_step ∧
    (aggregate_fold s master bufs).mcts_enable = s.mcts_enable ∧
    (aggregate_fold s master bufs).mcts_sampling = s.mcts_sampling ∧
    (aggregate_fold s master bufs).mcts_collect_data_freq
      = s.mcts_collect_data_freq ∧
    (aggregate_fold s master bufs).first_mcts = s.first_mcts ∧
    (aggregate_fold s master bufs).master_ob_rms = s.master_ob_rms ∧
    (aggregate_fold s master bufs).master_ret_rms = s.master_ret_rms ∧
    (aggregate_fold s master bufs).mcts_ob_rms = s.mcts_ob_rms ∧
    (aggregate_fold s master bufs).mcts_ret_rms = s.mcts_ret_rms ∧
    (aggregate_fold s master bufs).policy_trajectory_states
      = s.policy_trajectory_states ∧
    (aggregate_fold s master bufs).policy_trajectory_values
      = s.policy_trajectory_values ∧
    (aggregate_fold s master bufs).policy_trajectory_actions
      = s.policy_trajectory_actions ∧
    (aggregate_fold s master bufs).policy_trajectory_returns
      = s.policy_trajectory_returns ∧
    (aggregate_fold s master bufs).policy_trajectory_neg_logprobs
      = s.policy_trajectory_neg_logprobs ∧
    (aggregate_fold s master bufs).policy_trajectory_per_step_rewards
      = s.policy_trajectory_per_step_rewards := by
  induction bufs with
  | nil => intro s
           exact ⟨rfl, rfl, rfl, rfl, rfl, rfl, rfl, rfl, rfl, rfl, rfl, rfl,
                  rfl, rfl, rfl, rfl, rfl, rfl⟩
  | cons b bs ih => intro s
                    exact ih (aggregate_mcts_data s master b)

/-- Under the buffer invariant, the planned segment lengths sum to the
step budget. -/
theorem process_trajectory_lengths_sum (dones : List Bool) (pel : List Nat)
    (max_steps : Nat) (hsum : pel.sum ≤ max_steps)
    (hiff : pel.sum = max_steps ↔ dones.getLastD false = true) :
    (process_trajectory_lengths dones pel max_steps).sum = max_steps := by
  unfold process_trajectory_lengths
  by_cases hd : dones.getLastD false
  · simp only [hd, if_true]
    exact hiff.mpr hd
  · simp only [hd, if_false, Bool.false_eq_true]
    by_cases hp : 0 < pel.length
    · simp only [hp, if_true, List.sum_append, List.sum_cons, List.sum_nil]
      omega
    · simp [hp]

/-! ## C1 — Segmentation Planner -/

/-- C1 (amended): for a primary rollout with non-empty `dones` of length
`max_steps`, `process_trajectory_lengths` returns exactly
`per_episode_lengths` when the last step is terminal; `per_episode_lengths`
plus one final segment `max_steps - sum` when the last step is not terminal
but some episode completed; and `[max_steps]` when no episode completed.
Under the buffer invariant (`sum ≤ max_steps`, equality iff the last step
is terminal) the returned lengths sum to `max_steps`; they are all
positive provided every completed-episode length is positive. -/
theorem C1_segmentation_planner (dones : List Bool) (pel : List Nat)
    (max_steps : Nat) (hne : dones ≠ []) (hlen : dones.length = max_steps)
    (hsum : pel.sum ≤ max_steps)
    (hiff : pel.sum = max_steps ↔ dones.getLastD false = true) :
    (dones.getLastD false = true →
      process_trajectory_lengths dones pel max_steps = pel) ∧
    (dones.getLastD false = false → 0 < pel.length →
      process_trajectory_lengths dones pel max_steps
        = pel ++ [max_steps - pel.sum]) ∧
    (dones.getLastD false = false → pel.length = 0 →
      process_trajectory_lengths dones pel max_steps = [max_steps]) ∧
    (process_trajectory_lengths dones pel max_steps).sum = max_steps ∧
    ((∀ l ∈ pel, 0 < l) →
      ∀ x ∈ process_trajectory_lengths dones pel max_steps, 0 < x) := by
  have hms : 0 < max_steps := by
    rw [← hlen]
    cases dones with
    | nil => exact absurd rfl hne
    | cons a l => simp
  refine ⟨?_, ?_, ?_, ?_, ?_⟩
  · intro hd; unfold process_trajectory_lengths; rw [hd]; simp
  · intro hd hp; unfold process_trajectory_lengths; rw [hd]; simp [hp]
  · intro hd hp
    unfold process_trajectory_lengths; rw [hd]
    have hnp : ¬ 0 < pel.length := by omega
    simp [hnp]
  · exact process_trajectory_lengths_sum dones pel max_steps hsum hiff
  · intro hpos x hx
    unfold process_trajectory_lengths at hx
    cases hd : dones.getLastD false with
    | true =>
      rw [hd] at hx; simp only [if_true] at hx
      exact hpos x hx
    | false =>
      rw [hd] at hx
      have hlt : pel.sum < max_steps := by
        rcases Nat.lt_or_ge pel.sum max_steps with h | h
        · exact h
        · have heq : pel.sum = max_steps := le_antisymm hsum h
          have := hiff.mp heq
          rw [this] at hd; exact absurd hd (by simp)
      by_cases hp : 0 < pel.length
      · simp only [Bool.false_eq_true, if_false, hp, if_true, List.mem_append,
          List.mem_singleton] at hx
        rcases hx with h | h
        · exact hpos x h
        · omega
      · simp only [Bool.false_eq_true, if_false, hp] at hx
        simp only [List.mem_singleton] at hx
        omega

/-- Witness for C1 at `dones = [true, true]`, `per_episode_lengths = [1, 1]`,
`max_steps = 2`. -/
theorem C1_segmentation_planner_witness :
    ([true, true] : List Bool) ≠ [] ∧
    ([true, true] : List Bool).length = 2 ∧
    ([1, 1] : List Nat).sum ≤ 2 ∧
    (([1, 1] : List Nat).sum = 2 ↔ ([true, true] : List Bool).getLastD false = true) ∧
    ((([true, true] : List Bool).getLastD false = true →
      process_trajectory_lengths [true, true] [1, 1] 2 = [1, 1]) ∧
    (([true, true] : List Bool).getLastD false = false → 0 < ([1, 1] : List Nat).length →
      process_trajectory_lengths [true, true] [1, 1] 2 = [1, 1] ++ [2 - ([1, 1] : List Nat).sum]) ∧
    (([true, true] : List Bool).getLastD false = false → ([1, 1] : List Nat).length = 0 →
      process_trajectory_lengths [true, true] [1, 1] 2 = [2]) ∧
    (process_trajectory_lengths [true, true] [1, 1] 2).sum = 2 ∧
    ((∀ l ∈ ([1, 1] : List Nat), 0 < l) →
      ∀ x ∈ process_trajectory_lengths [true, true] [1, 1] 2, 0 < x)) :=
  ⟨by decide, by decide, by decide, by decide,
   C1_segmentation_planner [true, true] [1, 1] 2
     (by decide) (by decide) (by decide) (by decide)⟩

/-- Counterexample to C1 as stated: at `dones = [false]`,
`per_episode_lengths = [0]`, `max_steps = 1` the buffer invariant holds,
yet the returned segment lengths are `[0, 1]`, which are not all
positive. -/
theorem C1_positivity_counterexample :
    ([false] : List Bool) ≠ [] ∧
    ([false] : List Bool).length = 1 ∧
    ([0] : List Nat).sum ≤ 1 ∧
    (([0] : List Nat).sum = 1 ↔ ([false] : List Bool).getLastD false = true) ∧
    process_trajectory_lengths [false] [0] 1 = [0, 1] ∧
    ¬ (∀ x ∈ process_trajectory_lengths [false] [0] 1, 0 < x) := by
  refine ⟨by decide, by decide, by decide, by decide, by decide, ?_⟩
  decide

/-! ## C3 — sub-span subdivision of one segment -/

/-- `num_inits` is the ceiling of `L / U`: characterization by the two
defining inequalities, plus positivity. -/
theorem num_inits_spec (L U : Nat) (hU : 0 < U) (hL : 0 < L) :
    U * (num_inits L U - 1) < L ∧ L ≤ U * num_inits L U ∧
    0 < num_inits L U := by
  have hd : U * ((L + U - 1) / U) + (L + U - 1) % U = L + U - 1 :=
    Nat.div_add_mod (L + U - 1) U
  have hm : (L + U - 1) % U < U := Nat.mod_lt _ hU
  have hle : L ≤ U * num_inits L U := by unfold num_inits; omega
  have hpos : 0 < num_inits L U := by
    rcases Nat.eq_zero_or_pos (num_inits L U) with h | h
    · rw [h, Nat.mul_zero] at hle; omega
    · exact h
  have hstep : U * (num_inits L U - 1) + U = U * num_inits L U := by
    rcases Nat.exists_eq_add_of_lt hpos with ⟨k, hk⟩
    have hk' : num_inits L U = k + 1 := by omega
    rw [hk']
    simp [Nat.mul_succ]
  have hlt : U * (num_inits L U - 1) < L := by unfold num_inits at *; omega
  exact ⟨hlt, hle, hpos⟩

/-- The sub-span horizons of one segment are `num_inits - 1` copies of
the unit followed by the remainder. -/
theorem sub_span_horizons_eq (L U : Nat) (hU : 0 < U) (hL : 0 < L) :
    sub_span_horizons L U =
      List.replicate (num_inits L U - 1) U ++
        [L - (num_inits L U - 1) * U] := by
  obtain ⟨_, _, hpos⟩ := num_inits_spec L U hU hL
  unfold sub_span_horizons
  rcases Nat.exists_eq_add_of_lt hpos with ⟨k, hk⟩
  have hk' : num_inits L U = k + 1 := by omega
  rw [hk']
  rw [List.range_succ, List.map_append]
  congr 1
  · apply List.eq_replicate_iff.2
    constructor
    · simp
    · intro b hb
      rcases List.mem_map.1 hb with ⟨i, hi, rfl⟩
      have : i < k := List.mem_range.1 hi
      simp only [Nat.add_sub_cancel]
      rw [if_pos this]
  · simp

/-- C3: every segment of length `L ≥ 1` is covered by exactly
`ceil(L/U)` sub-spans: all but the last have the configured unit length
`U`, the last takes the remainder `L - (ceil(L/U) - 1)·U`; the horizons
sum to `L`, each lies in `[1, U]`, and when `U` divides `L` the last
horizon equals `U`; the pairs planned by `play` for a single segment
project to exactly these horizons. -/
theorem C3_sub_span_horizons (L U : Nat) (hL : 0 < L) (hU : 0 < U) :
    (sub_span_horizons L U).length = num_inits L U ∧
    (num_inits L U : Int) = ⌈(L : ℚ) / (U : ℚ)⌉ ∧
    sub_span_horizons L U =
      List.replicate (num_inits L U - 1) U ++
        [L - (num_inits L U - 1) * U] ∧
    (sub_span_horizons L U).sum = L ∧
    (∀ h ∈ sub_span_horizons L U, 1 ≤ h ∧ h ≤ U) ∧
    (U ∣ L → L - (num_inits L U - 1) * U = U) ∧
    (∀ base : Nat, (sub_span_plan [L] U base).map Prod.snd
      = sub_span_horizons L U) := by
  obtain ⟨hlt, hle, hpos⟩ := num_inits_spec L U hU hL
  have heq := sub_span_horizons_eq L U hU hL
  have hstep : U * (num_inits L U - 1) + U = U * num_inits L U := by
    rcases Nat.exists_eq_add_of_lt hpos with ⟨k, hk⟩
    have hk' : num_inits L U = k + 1 := by omega
    rw [hk']
    simp [Nat.mul_succ]
  have hmul : (num_inits L U - 1) * U = U * (num_inits L U - 1) :=
    Nat.mul_comm _ _
  refine ⟨?_, ?_, heq, ?_, ?_, ?_, ?_⟩
  · unfold sub_span_horizons; simp
  · symm
    rw [Int.ceil_eq_iff]
    have hUQ : (0 : ℚ) < (U : ℚ) := by exact_mod_cast hU
    have hcast : ((num_inits L U : Int) : ℚ) = ((num_inits L U : Nat) : ℚ) := by
      push_cast; ring
    constructor
    · rw [hcast, lt_div_iff₀ hUQ]
      have hsub : (num_inits L U : ℚ) - 1 = ((num_inits L U - 1 : Nat) : ℚ) := by
        have h1 : (1 : Nat) ≤ num_inits L U := hpos
        push_cast [Nat.cast_sub h1]
        ring
      rw [hsub]
      exact_mod_cast (show (num_inits L U - 1) * U < L by
        rw [Nat.mul_comm]; exact hlt)
    · rw [hcast, div_le_iff₀ hUQ]
      exact_mod_cast (show L ≤ num_inits L U * U by
        rw [Nat.mul_comm]; exact hle)
  · rw [heq]
    simp only [List.sum_append, List.sum_replicate, List.sum_cons,
      List.sum_nil, smul_eq_mul]
    omega
  · intro h hh
    rw [heq] at hh
    rcases List.mem_append.1 hh with h1 | h1
    · have := List.eq_of_mem_replicate h1
      omega
    · simp only [List.mem_singleton] at h1
      omega
  · rintro ⟨c, rfl⟩
    have h1 : num_inits (U * c) U - 1 < c := Nat.lt_of_mul_lt_mul_left hlt
    have h2 : c ≤ num_inits (U * c) U := Nat.le_of_mul_le_mul_left hle hU
    have hc : num_inits (U * c) U = c := by omega
    have hstep' : U * (c - 1) + U = U * c := by rw [← hc]; exact hstep
    rw [hc, Nat.mul_comm (c - 1) U]
    omega
  · intro base
    simp [sub_span_plan, sub_span_horizons, List.map_map, Function.comp]

/-- Witness for C3 at `L = 5`, `U = 2` (three sub-spans `[2, 2, 1]`). -/
theorem C3_sub_span_horizons_witness :
    0 < 5 ∧ 0 < 2 ∧
    ((sub_span_horizons 5 2).length = num_inits 5 2 ∧
    (num_inits 5 2 : Int) = ⌈(5 : ℚ) / (2 : ℚ)⌉ ∧
    sub_span_horizons 5 2 =
      List.replicate (num_inits 5 2 - 1) 2 ++ [5 - (num_inits 5 2 - 1) * 2] ∧
    (sub_span_horizons 5 2).sum = 5 ∧
    (∀ h ∈ sub_span_horizons 5 2, 1 ≤ h ∧ h ≤ 2) ∧
    (2 ∣ 5 → 5 - (num_inits 5 2 - 1) * 2 = 2) ∧
    (∀ base : Nat, (sub_span_plan [5] 2 base).map Prod.snd
      = sub_span_horizons 5 2)) :=
  ⟨by decide, by decide, C3_sub_span_horizons 5 2 (by decide) (by decide)⟩

/-! ## C10 — all initialization indices are in bounds -/

/-- Every initialization index planned from segment lengths `lens` with
a positive sub-span unit is below the running base plus the total of the
segment lengths. -/
theorem sub_span_plan_fst_lt (U : Nat) (hU : 0 < U) :
    ∀ (lens : List Nat) (base : Nat),
      ∀ p ∈ sub_span_plan lens U base, p.1 < base + lens.sum := by
  intro lens
  induction lens with
  | nil => intro base p hp; simp [sub_span_plan] at hp
  | cons L rest ih =>
    intro base p hp
    unfold sub_span_plan at hp
    rcases List.mem_append.1 hp with h | h
    · rcases List.mem_map.1 h with ⟨i, hi, rfl⟩
      have hiL : i < num_inits L U := List.mem_range.1 hi
      have hL : 0 < L := by
        rcases Nat.eq_zero_or_pos L with h0 | h0
        · subst h0
          unfold num_inits at hiL
          have : (0 + U - 1) / U = 0 := Nat.div_eq_of_lt (by omega)
          omega
        · exact h0
      obtain ⟨hlt, _, hpos⟩ := num_inits_spec L U hU hL
      have hmono : U * i ≤ U * (num_inits L U - 1) :=
        Nat.mul_le_mul_left _ (by omega)
      simp only [List.sum_cons]
      omega
    · have := ih (base + L) p h
      simp only [List.sum_cons]
      omega

/-- C10: for every primary rollout whose `dones` has exactly `max_steps`
entries and whose episode record satisfies the buffer invariant, and any
positive `len_segment` unit, every initialization index
`base_len + i * len_segment` computed by `play`'s search loop is
strictly below `max_steps`, so with `env_states` and
`trajectory_actions` of length `max_steps` every read is in bounds. -/
theorem C10_init_indices_in_bounds (dones : List Bool) (pel : List Nat)
    (max_steps U : Nat) (hU : 0 < U) (hne : dones ≠ [])
    (hlen : dones.length = max_steps) (hsum : pel.sum ≤ max_steps)
    (hiff : pel.sum = max_steps ↔ dones.getLastD false = true) :
    ∀ p ∈ sub_span_plan (process_trajectory_lengths dones pel max_steps) U 0,
      p.1 < max_steps := by
  intro p hp
  have h := sub_span_plan_fst_lt U hU
    (process_trajectory_lengths dones pel max_steps) 0 p hp
  rwa [process_trajectory_lengths_sum dones pel max_steps hsum hiff,
       Nat.zero_add] at h

/-- Witness for C10 at `dones = [false, false]`, `per_episode_lengths = [1]`,
`max_steps = 2`, `len_segment = 1`. -/
theorem C10_init_indices_in_bounds_witness :
    0 < 1 ∧ ([false, false] : List Bool) ≠ [] ∧
    ([false, false] : List Bool).length = 2 ∧
    ([1] : List Nat).sum ≤ 2 ∧
    (([1] : List Nat).sum = 2 ↔ ([false, false] : List Bool).getLastD false = true) ∧
    (∀ p ∈ sub_span_plan (process_trajectory_lengths [false, false] [1] 2) 1 0,
      p.1 < 2) :=
  ⟨by decide, by decide, by decide, by decide, by decide,
   C10_init_indices_in_bounds [false, false] [1] 2 1
     (by decide) (by decide) (by decide) (by decide) (by decide)⟩

/-! ## C4 / C5 — the Current-Step aggregator -/

/-- In search mode, folding `aggregate_mcts_data` over a list of search
buffers appends each buffer's attributes in call order. -/
theorem aggregate_fold_data (master : GameBuffer σ α)
    (bufs : List (GameBuffer σ α)) : ∀ s : PEState σ α,
    s.mcts_sampling = true →
    (aggregate_fold s master bufs).trajectory_states.data
      = s.trajectory_states.data
        ++ (bufs.map GameBuffer.trajectory_states).flatten ∧
    (aggregate_fold s master bufs).trajectory_actions.data
      = s.trajectory_actions.data
        ++ (bufs.map GameBuffer.trajectory_actions).flatten ∧
    (aggregate_fold s master bufs).trajectory_values.data
      = s.trajectory_values.data
        ++ (bufs.map GameBuffer.trajectory_values).flatten ∧
    (aggregate_fold s master bufs).trajectory_neg_logprobs.data
      = s.trajectory_neg_logprobs.data
        ++ (bufs.map GameBuffer.trajectory_neg_logprobs).flatten ∧
    (aggregate_fold s master bufs).trajectory_means.data
      = s.trajectory_means.data
        ++ (bufs.map GameBuffer.trajectory_means).flatten ∧
    (aggregate_fold s master bufs).trajectory_logstds.data
      = s.trajectory_logstds.data
        ++ (bufs.map GameBuffer.trajectory_logstds).flatten ∧
    (aggregate_fold s master bufs).trajectory_per_episode_rewards.data
      = s.trajectory_per_episode_rewards.data
        ++ (bufs.map GameBuffer.trajectory_per_episode_rewards).flatten ∧
    (aggregate_fold s master bufs).trajectory_per_episode_lengths.data
      = s.trajectory_per_episode_lengths.data
        ++ (bufs.map GameBuffer.trajectory_per_episode_lengths).flatten ∧
    (aggregate_fold s master bufs).trajectory_dones.data
      = s.trajectory_dones.data
        ++ (bufs.map GameBuffer.trajectory_dones).flatten ∧
    (aggregate_fold s master bufs).trajectory_per_step_rewards.data
      = s.trajectory_per_step_rewards.data
        ++ (bufs.map GameBuffer.trajectory_per_step_rewards).flatten ∧
    (aggregate_fold s master bufs).trajectory_returns.data
      = s.trajectory_returns.data
        ++ (bufs.map GameBuffer.trajectory_returns).flatten := by
  induction bufs with
  | nil =>
    intro s _
    simp [aggregate_fold]
  | cons b bs ih =>
    intro s hs
    have h := ih (aggregate_mcts_data s master b) hs
    have hb : ∀ {β : Type} (old : NpArray β) (mv mav : List β) (dt nd : Dtype),
        (agg_attr s.mcts_sampling old mv mav dt nd).data = old.data ++ mv := by
      intro β old mv mav dt nd
      rw [hs]
      exact agg_attr_data old mv mav dt nd
    simp only [aggregate_fold, List.foldl_cons, aggregate_mcts_data, hb,
      List.map_cons, List.flatten_cons, List.append_assoc] at h ⊢
    exact h

/-- Once the stored actions are a non-empty 32- or 64-bit float array,
concatenating any further search buffer stores them as 64-bit floats
(NumPy promotion against the buffer's native float64 list). -/
theorem aggregate_fold_actions_f64 (master : GameBuffer σ α) :
    ∀ (bufs : List (GameBuffer σ α)) (s : PEState σ α),
    s.mcts_sampling = true → s.trajectory_actions.data ≠ [] →
    (s.trajectory_actions.dtype = .f32 ∨ s.trajectory_actions.dtype = .f64) →
    bufs ≠ [] →
    (aggregate_fold s master bufs).trajectory_actions.dtype = .f64 ∧
    (aggregate_fold s master bufs).trajectory_actions.data ≠ [] := by
  intro bufs
  induction bufs with
  | nil => intro s _ _ _ hb; exact absurd rfl hb
  | cons b bs ih =>
    intro s hs hne hdt _
    have hlen : 0 < s.trajectory_actions.data.length := List.length_pos.2 hne
    have hstep_dtype :
        (aggregate_mcts_data s master b).trajectory_actions.dtype = .f64 := by
      show (agg_attr s.mcts_sampling s.trajectory_actions b.trajectory_actions
        master.trajectory_actions .f32 .f64).dtype = .f64
      rw [hs]
      unfold agg_attr
      rw [if_pos rfl, if_pos hlen]
      rcases hdt with hdt | hdt <;> rw [hdt] <;> rfl
    have hstep_data :
        (aggregate_mcts_data s master b).trajectory_actions.data ≠ [] := by
      show (agg_attr s.mcts_sampling s.trajectory_actions b.trajectory_actions
        master.trajectory_actions .f32 .f64).data ≠ []
      rw [hs, agg_attr_data]
      simp [hne]
    cases bs with
    | nil => exact ⟨hstep_dtype, hstep_data⟩
    | cons b2 bs2 =>
      exact ih (aggregate_mcts_data s master b) hs hstep_data
        (Or.inr hstep_dtype) (by simp)

/-- Booleans stay booleans under the fold (boolean native lists promote
to boolean). -/
theorem aggregate_fold_dones_bool (master : GameBuffer σ α) :
    ∀ (bufs : List (GameBuffer σ α)) (s : PEState σ α),
    s.mcts_sampling = true →
    (s.trajectory_dones.data = [] ∨ s.trajectory_dones.dtype = .boolDt) →
    bufs ≠ [] →
    (aggregate_fold s master bufs).trajectory_dones.dtype = .boolDt := by
  intro bufs
  induction bufs with
  | nil => intro s _ _ hb; exact absurd rfl hb
  | cons b bs ih =>
    intro s hs hd _
    have hstep :
        (aggregate_mcts_data s master b).trajectory_dones.dtype = .boolDt := by
      show (agg_attr s.mcts_sampling s.trajectory_dones b.trajectory_dones
        master.trajectory_dones .boolDt .boolDt).dtype = .boolDt
      rw [hs]
      unfold agg_attr
      rw [if_pos rfl]
      by_cases hl : 0 < s.trajectory_dones.data.length
      · rw [if_pos hl]
        rcases hd with hd | hd
        · rw [hd] at hl; simp at hl
        · rw [hd]; rfl
      · rw [if_neg hl]; rfl
    cases bs with
    | nil => exact hstep
    | cons b2 bs2 =>
      exact ih (aggregate_mcts_data s master b) hs (Or.inr hstep) (by simp)

/-- States keep the observation dtype under the fold. -/
theorem aggregate_fold_states_obs (master : GameBuffer σ α) :
    ∀ (bufs : List (GameBuffer σ α)) (s : PEState σ α),
    s.mcts_sampling = true →
    (s.trajectory_states.data = [] ∨ s.trajectory_states.dtype = .obsDt) →
    bufs ≠ [] →
    (aggregate_fold s master bufs).trajectory_states.dtype = .obsDt := by
  intro bufs
  induction bufs with
  | nil => intro s _ _ hb; exact absurd rfl hb
  | cons b bs ih =>
    intro s hs hd _
    have hstep :
        (aggregate_mcts_data s master b).trajectory_states.dtype = .obsDt := by
      show (agg_attr s.mcts_sampling s.trajectory_states b.trajectory_states
        master.trajectory_states .obsDt .obsDt).dtype = .obsDt
      rw [hs]
      unfold agg_attr
      rw [if_pos rfl]
      by_cases hl : 0 < s.trajectory_states.data.length
      · rw [if_pos hl]
        rcases hd with hd | hd
        · rw [hd] at hl; simp at hl
        · rw [hd]; rfl
      · rw [if_neg hl]; rfl
    cases bs with
    | nil => exact hstep
    | cons b2 bs2 =>
      exact ih (aggregate_mcts_data s master b) hs (Or.inr hstep) (by simp)

/-- C4 (amended): starting from empty current-step attributes in search
mode, a sequence of `aggregate_mcts_data` calls after buffers `B1 … Bn`
stores, for every named attribute, the ordered concatenation of the
buffers' attribute in call order.  The fixed dtype of the source's
`data_attr_types` table is applied when the dataset is first populated
(a single buffer); `dones` stay boolean and `states` keep the
observation dtype throughout; but once a further buffer with non-empty
float data is concatenated, `np.concatenate`'s promotion stores the
float attributes as 64-bit floats, not the table's 32-bit type. -/
theorem C4_aggregate_search_concat (s : PEState σ α)
    (master : GameBuffer σ α) (bufs : List (GameBuffer σ α))
    (hs : s.mcts_sampling = true)
    (hempty : s.trajectory_states.data = [] ∧
      s.trajectory_actions.data = [] ∧
      s.trajectory_values.data = [] ∧
      s.trajectory_neg_logprobs.data = [] ∧
      s.trajectory_means.data = [] ∧
      s.trajectory_logstds.data = [] ∧
      s.trajectory_per_episode_rewards.data = [] ∧
      s.trajectory_per_episode_lengths.data = [] ∧
      s.trajectory_dones.data = [] ∧
      s.trajectory_per_step_rewards.data = [] ∧
      s.trajectory_returns.data = []) :
    ((aggregate_fold s master bufs).trajectory_states.data
        = (bufs.map GameBuffer.trajectory_states).flatten ∧
      (aggregate_fold s master bufs).trajectory_actions.data
        = (bufs.map GameBuffer.trajectory_actions).flatten ∧
      (aggregate_fold s master bufs).trajectory_values.data
        = (bufs.map GameBuffer.trajectory_values).flatten ∧
      (aggregate_fold s master bufs).trajectory_neg_logprobs.data
        = (bufs.map GameBuffer.trajectory_neg_logprobs).flatten ∧
      (aggregate_fold s master bufs).trajectory_means.data
        = (bufs.map GameBuffer.trajectory_means).flatten ∧
      (aggregate_fold s master bufs).trajectory_logstds.data
        = (bufs.map GameBuffer.trajectory_logstds).flatten ∧
      (aggregate_fold s master bufs).trajectory_per_episode_rewards.data
        = (bufs.map GameBuffer.trajectory_per_episode_rewards).flatten ∧
      (aggregate_fold s master bufs).trajectory_per_episode_lengths.data
        = (bufs.map GameBuffer.trajectory_per_episode_lengths).flatten ∧
      (aggregate_fold s master bufs).trajectory_dones.data
        = (bufs.map GameBuffer.trajectory_dones).flatten ∧
      (aggregate_fold s master bufs).trajectory_per_step_rewards.data
        = (bufs.map GameBuffer.trajectory_per_step_rewards).flatten ∧
      (aggregate_fold s master bufs).trajectory_returns.data
        = (bufs.map GameBuffer.trajectory_returns).flatten) ∧
    (∀ b : GameBuffer σ α, bufs = [b] →
      (aggregate_fold s master bufs).trajectory_states.dtype = .obsDt ∧
      (aggregate_fold s master bufs).trajectory_actions.dtype = .f32 ∧
      (aggregate_fold s master bufs).trajectory_values.dtype = .f32 ∧
      (aggregate_fold s master bufs).trajectory_neg_logprobs.dtype = .f32 ∧
      (aggregate_fold s master bufs).trajectory_means.dtype = .f32 ∧
      (aggregate_fold s master bufs).trajectory_logstds.dtype = .f32 ∧
      (aggregate_fold s master bufs).trajectory_per_episode_rewards.dtype = .f32 ∧
      (aggregate_fold s master bufs).trajectory_per_episode_lengths.dtype = .f32 ∧
      (aggregate_fold s master bufs).trajectory_dones.dtype = .boolDt ∧
      (aggregate_fold s master bufs).trajectory_per_step_rewards.dtype = .f32 ∧
      (aggregate_fold s master bufs).trajectory_returns.dtype = .f32) ∧
    (2 ≤ bufs.length → (∀ b ∈ bufs, b.trajectory_actions ≠ []) →
      (aggregate_fold s master bufs).trajectory_actions.dtype = .f64) ∧
    (bufs ≠ [] →
      (aggregate_fold s master bufs).trajectory_dones.dtype = .boolDt ∧
      (aggregate_fold s master bufs).trajectory_states.dtype = .obsDt) := by
  obtain ⟨he1, he2, he3, he4, he5, he6, he7, he8, he9, he10, he11⟩ := hempty
  refine ⟨?_, ?_, ?_, ?_⟩
  · have h := aggregate_fold_data master bufs s hs
    rw [he1, he2, he3, he4, he5, he6, he7, he8, he9, he10, he11] at h
    simpa using h
  · rintro b rfl
    show ((aggregate_mcts_data s master b).trajectory_states.dtype = .obsDt ∧ _)
    have hone : ∀ {β : Type} (old : NpArray β) (mv mav : List β)
        (dt nd : Dtype), old.data = [] →
        (agg_attr s.mcts_sampling old mv mav dt nd).dtype = dt := by
      intro β old mv mav dt nd hold
      rw [hs]
      unfold agg_attr
      rw [if_pos rfl, if_neg (by rw [hold]; simp)]
      rfl
    exact ⟨hone _ _ _ _ _ he1, hone _ _ _ _ _ he2, hone _ _ _ _ _ he3,
      hone _ _ _ _ _ he4, hone _ _ _ _ _ he5, hone _ _ _ _ _ he6,
      hone _ _ _ _ _ he7, hone _ _ _ _ _ he8, hone _ _ _ _ _ he9,
      hone _ _ _ _ _ he10, hone _ _ _ _ _ he11⟩
  · intro hlen hnon
    cases bufs with
    | nil => simp at hlen
    | cons b1 rest =>
      cases rest with
      | nil => simp at hlen
      | cons b2 rest2 =>
        have hb1 : b1.trajectory_actions ≠ [] := hnon b1 (by simp)
        have hfirst :
            (aggregate_mcts_data s master b1).trajectory_actions
              = asarray b1.trajectory_actions .f32 := by
          show agg_attr s.mcts_sampling s.trajectory_actions
            b1.trajectory_actions master.trajectory_actions .f32 .f64
            = asarray b1.trajectory_actions .f32
          rw [hs]
          unfold agg_attr
          rw [if_pos rfl, if_neg (by rw [he2]; simp)]
        have := aggregate_fold_actions_f64 master (b2 :: rest2)
          (aggregate_mcts_data s master b1) hs
          (by rw [hfirst]; exact hb1)
          (by rw [hfirst]; exact Or.inl rfl)
          (by simp)
        exact this.1
  · intro hb
    exact ⟨aggregate_fold_dones_bool master bufs s hs (Or.inl he9) hb,
           aggregate_fold_states_obs master bufs s hs (Or.inl he1) hb⟩

/-- A current-step state for exercising the aggregator: search mode on,
all eleven attributes empty. -/
def c4_state : PEState Nat Nat :=
  { len_segment := 1
    sampling_step := 0
    mcts_start_step := 0
    mcts_end_step := 10
    mcts_enable := true
    mcts_sampling := true
    mcts_collect_data_freq := 1
    first_mcts := false
    master_ob_rms := 0
    master_ret_rms := 1
    mcts_ob_rms := 2
    mcts_ret_rms := 3
    trajectory_states := emptyArr
    trajectory_actions := emptyArr
    trajectory_values := emptyArr
    trajectory_neg_logprobs := emptyArr
    trajectory_means := emptyArr
    trajectory_logstds := emptyArr
    trajectory_per_episode_rewards := emptyArr
    trajectory_per_episode_lengths := emptyArr
    trajectory_dones := emptyArr
    trajectory_per_step_rewards := emptyArr
    trajectory_returns := emptyArr
    policy_trajectory_states := emptyArr
    policy_trajectory_values := emptyArr
    policy_trajectory_actions := emptyArr
    policy_trajectory_returns := emptyArr
    policy_trajectory_neg_logprobs := emptyArr
    policy_trajectory_per_step_rewards := emptyArr }

/-- A search buffer holding action `1`. -/
def c4_b1 : GameBuffer Nat Nat :=
  { GameBuffer.empty with trajectory_actions := [1] }

/-- A search buffer holding action `2`. -/
def c4_b2 : GameBuffer Nat Nat :=
  { GameBuffer.empty with trajectory_actions := [2] }

/-- Witness for C4 at two concrete buffers. -/
theorem C4_aggregate_search_concat_witness :
    c4_state.mcts_sampling = true ∧
    (c4_state.trajectory_states.data = [] ∧
      c4_state.trajectory_actions.data = [] ∧
      c4_state.trajectory_values.data = [] ∧
      c4_state.trajectory_neg_logprobs.data = [] ∧
      c4_state.trajectory_means.data = [] ∧
      c4_state.trajectory_logstds.data = [] ∧
      c4_state.trajectory_per_episode_rewards.data = [] ∧
      c4_state.trajectory_per_episode_lengths.data = [] ∧
      c4_state.trajectory_dones.data = [] ∧
      c4_state.trajectory_per_step_rewards.data = [] ∧
      c4_state.trajectory_returns.data = []) ∧
    (aggregate_fold c4_state GameBuffer.empty [c4_b1, c4_b2]).trajectory_actions.data
      = ([c4_b1, c4_b2].map GameBuffer.trajectory_actions).flatten :=
  ⟨by decide, by decide,
   ((C4_aggregate_search_concat c4_state GameBuffer.empty [c4_b1, c4_b2]
      (by decide) (by decide)).1).2.1⟩

/-- Counterexample to C4 as stated: concatenating a second non-empty
buffer stores `trajectory_actions` with dtype float64, not the fixed
32-bit float type claimed; the values are still the concatenation. -/
theorem C4_dtype_counterexample :
    (aggregate_fold c4_state GameBuffer.empty
        [c4_b1, c4_b2]).trajectory_actions.data = [1, 2] ∧
    (aggregate_fold c4_state GameBuffer.empty
        [c4_b1, c4_b2]).trajectory_actions.dtype = .f64 ∧
    (aggregate_fold c4_state GameBuffer.empty
        [c4_b1, c4_b2]).trajectory_actions.dtype ≠ .f32 := by
  refine ⟨by decide, by decide, ?_⟩
  decide

/-- C5: a single `aggregate_mcts_data` call outside search mode sets
every one of the eleven `trajectory_*` attributes to the master game's
attribute of the same name coerced to its fixed dtype, fully replacing
any prior contents (the result does not depend on the previous
attribute values nor on the mcts game's buffer). -/
theorem C5_aggregate_copy_master (s : PEState σ α)
    (master mcts : GameBuffer σ α) (hs : s.mcts_sampling = false) :
    (aggregate_mcts_data s master mcts).trajectory_states
      = asarray master.trajectory_states .obsDt ∧
    (aggregate_mcts_data s master mcts).trajectory_actions
      = asarray master.trajectory_actions .f32 ∧
    (aggregate_mcts_data s master mcts).trajectory_values
      = asarray master.trajectory_values .f32 ∧
    (aggregate_mcts_data s master mcts).trajectory_neg_logprobs
      = asarray master.trajectory_neg_logprobs .f32 ∧
    (aggregate_mcts_data s master mcts).trajectory_means
      = asarray master.trajectory_means .f32 ∧
    (aggregate_mcts_data s master mcts).trajectory_logstds
      = asarray master.trajectory_logstds .f32 ∧
    (aggregate_mcts_data s master mcts).trajectory_per_episode_rewards
      = asarray master.trajectory_per_episode_rewards .f32 ∧
    (aggregate_mcts_data s master mcts).trajectory_per_episode_lengths
      = asarray master.trajectory_per_episode_lengths .f32 ∧
    (aggregate_mcts_data s master mcts).trajectory_dones
      = asarray master.trajectory_dones .boolDt ∧
    (aggregate_mcts_data s master mcts).trajectory_per_step_rewards
      = asarray master.trajectory_per_step_rewards .f32 ∧
    (aggregate_mcts_data s master mcts).trajectory_returns
      = asarray master.trajectory_returns .f32 := by
  simp [aggregate_mcts_data, agg_attr, hs]

/-- A non-search state with arbitrary non-empty prior contents, and the
two buffers for the C5 witness. -/
def c5_state : PEState Nat Nat :=
  { len_segment := 1
    sampling_step := 0
    mcts_start_step := 0
    mcts_end_step := 10
    mcts_enable := true
    mcts_sampling := false
    mcts_collect_data_freq := 1
    first_mcts := false
    master_ob_rms := 0
    master_ret_rms := 1
    mcts_ob_rms := 2
    mcts_ret_rms := 3
    trajectory_states := emptyArr
    trajectory_actions := ⟨.f64, [9]⟩
    trajectory_values := emptyArr
    trajectory_neg_logprobs := emptyArr
    trajectory_means := emptyArr
    trajectory_logstds := emptyArr
    trajectory_per_episode_rewards := emptyArr
    trajectory_per_episode_lengths := emptyArr
    trajectory_dones := emptyArr
    trajectory_per_step_rewards := emptyArr
    trajectory_returns := emptyArr
    policy_trajectory_states := emptyArr
    policy_trajectory_values := emptyArr
    policy_trajectory_actions := emptyArr
    policy_trajectory_returns := emptyArr
    policy_trajectory_neg_logprobs := emptyArr
    policy_trajectory_per_step_rewards := emptyArr }

/-- The master buffer for the C5 witness (action `4`). -/
def c5_master : GameBuffer Nat Nat :=
  { GameBuffer.empty with trajectory_actions := [4] }

/-- The (ignored) mcts buffer for the C5 witness (action `6`). -/
def c5_mcts : GameBuffer Nat Nat :=
  { GameBuffer.empty with trajectory_actions := [6] }

/-- Witness for C5: a non-search state with non-empty prior contents has
its actions replaced by the master game's coerced actions. -/
theorem C5_aggregate_copy_master_witness :
    c5_state.mcts_sampling = false ∧
    (aggregate_mcts_data c5_state c5_master c5_mcts).trajectory_actions
      = asarray c5_master.trajectory_actions .f32 :=
  ⟨by decide,
   ((C5_aggregate_copy_master c5_state c5_master c5_mcts (by decide)).2).1⟩

/-! ## C2 / C8 — per-step dataset refreshing -/

/-- The statistics hand-off touches neither the step counter nor the
frequency-gate inputs. -/
theorem collect_gate_handoff (s : PEState σ α) :
    collect_gate (rms_handoff_update s) = collect_gate s := by
  unfold rms_handoff_update
  by_cases hf : s.first_mcts = true
  · rw [if_pos hf]; rfl
  · rw [if_neg hf]

/-- C2 (amended): the Policy Dataset is refreshed from the primary
rollout — independent of the search flag and of any search output — on
every `play` call in which search is ineligible or the frequency gate
passes; on a call where `mcts_sample_enable()` is true but the gate
fails, `aggregate_policy_data` is not reached and all six
`policy_trajectory_*` attributes keep their previous values. -/
theorem C2_policy_dataset (s : PEState σ α) (m : Nat) (inp : PlayInput σ α) :
    (mcts_sample_enable s = false →
      (play s m inp).1.policy_trajectory_states
        = asarray inp.master.trajectory_states .obsDt ∧
      (play s m inp).1.policy_trajectory_actions
        = asarray inp.master.trajectory_actions .f32 ∧
      (play s m inp).1.policy_trajectory_values
        = asarray inp.master.trajectory_values .f32 ∧
      (play s m inp).1.policy_trajectory_neg_logprobs
        = asarray inp.master.trajectory_neg_logprobs .f32 ∧
      (play s m inp).1.policy_trajectory_per_step_rewards
        = asarray inp.master.trajectory_per_step_rewards .f32 ∧
      (play s m inp).1.policy_trajectory_returns
        = asarray inp.master.trajectory_returns .f32) ∧
    (mcts_sample_enable s = true → collect_gate s = true →
      (play s m inp).1.policy_trajectory_states
        = asarray inp.master.trajectory_states .obsDt ∧
      (play s m inp).1.policy_trajectory_actions
        = asarray inp.master.trajectory_actions .f32 ∧
      (play s m inp).1.policy_trajectory_values
        = asarray inp.master.trajectory_values .f32 ∧
      (play s m inp).1.policy_trajectory_neg_logprobs
        = asarray inp.master.trajectory_neg_logprobs .f32 ∧
      (play s m inp).1.policy_trajectory_per_step_rewards
        = asarray inp.master.trajectory_per_step_rewards .f32 ∧
      (play s m inp).1.policy_trajectory_returns
        = asarray inp.master.trajectory_returns .f32) ∧
    (mcts_sample_enable s = true → collect_gate s = false →
      (play s m inp).1.policy_trajectory_states
        = s.policy_trajectory_states ∧
      (play s m inp).1.policy_trajectory_actions
        = s.policy_trajectory_actions ∧
      (play s m inp).1.policy_trajectory_values
        = s.policy_trajectory_values ∧
      (play s m inp).1.policy_trajectory_neg_logprobs
        = s.policy_trajectory_neg_logprobs ∧
      (play s m inp).1.policy_trajectory_per_step_rewards
        = s.policy_trajectory_per_step_rewards ∧
      (play s m inp).1.policy_trajectory_returns
        = s.policy_trajectory_returns) := by
  refine ⟨?_, ?_, ?_⟩
  · intro he
    simp only [play]
    rw [if_pos he]
    exact ⟨rfl, rfl, rfl, rfl, rfl, rfl⟩
  · intro he hg
    have he' : ¬ (mcts_sample_enable s = false) := by rw [he]; simp
    have hg' : collect_gate (rms_handoff_update s) = true := by
      rw [collect_gate_handoff, hg]
    simp only [play]
    rw [if_neg he', if_pos hg']
    exact ⟨rfl, rfl, rfl, rfl, rfl, rfl⟩
  · intro he hg
    have he' : ¬ (mcts_sample_enable s = false) := by rw [he]; simp
    have hg' : ¬ (collect_gate (rms_handoff_update s) = true) := by
      rw [collect_gate_handoff, hg]; simp
    simp only [play]
    rw [if_neg he', if_neg hg']
    unfold rms_handoff_update
    by_cases hf : s.first_mcts = true
    · rw [if_pos hf]
      exact ⟨rfl, rfl, rfl, rfl, rfl, rfl⟩
    · rw [if_neg hf]
      exact ⟨rfl, rfl, rfl, rfl, rfl, rfl⟩

/-- An orchestrator state at the start of an eligible search window
(`window [0, 10)`, collection frequency 2), as produced after
construction with those settings. -/
def c2_state : PEState Nat Nat :=
  { len_segment := 1
    sampling_step := 0
    mcts_start_step := 0
    mcts_end_step := 10
    mcts_enable := true
    mcts_sampling := false
    mcts_collect_data_freq := 2
    first_mcts := true
    master_ob_rms := 0
    master_ret_rms := 1
    mcts_ob_rms := 2
    mcts_ret_rms := 3
    trajectory_states := emptyArr
    trajectory_actions := emptyArr
    trajectory_values := emptyArr
    trajectory_neg_logprobs := emptyArr
    trajectory_means := emptyArr
    trajectory_logstds := emptyArr
    trajectory_per_episode_rewards := emptyArr
    trajectory_per_episode_lengths := emptyArr
    trajectory_dones := emptyArr
    trajectory_per_step_rewards := emptyArr
    trajectory_returns := emptyArr
    policy_trajectory_states := emptyArr
    policy_trajectory_values := emptyArr
    policy_trajectory_actions := emptyArr
    policy_trajectory_returns := emptyArr
    policy_trajectory_neg_logprobs := emptyArr
    policy_trajectory_per_step_rewards := emptyArr }

/-- A primary rollout of two steps with actions `7`. -/
def c2_master0 : GameBuffer Nat Nat :=
  { trajectory_states := [10, 11]
    trajectory_actions := [7, 7]
    trajectory_values := [0, 0]
    trajectory_neg_logprobs := [0, 0]
    trajectory_means := [0, 0]
    trajectory_logstds := [0, 0]
    trajectory_per_episode_rewards := []
    trajectory_per_episode_lengths := []
    trajectory_dones := [false, false]
    trajectory_per_step_rewards := [1, 1]
    trajectory_returns := [2, 2] }

/-- A later primary rollout with different actions `5`. -/
def c2_master1 : GameBuffer Nat Nat :=
  { c2_master0 with trajectory_actions := [5, 5] }

/-- Play input carrying the first primary rollout. -/
def c2_inp0 : PlayInput Nat Nat :=
  { master := c2_master0
    env_states := [100, 101]
    mcts_run := fun _ _ _ => GameBuffer.empty
    default_state := 0
    default_action := 0 }

/-- Play input carrying the second primary rollout. -/
def c2_inp1 : PlayInput Nat Nat := { c2_inp0 with master := c2_master1 }

/-- Witness for C2 on the ineligible branch: a state outside the search
window refreshes the policy actions from the primary rollout. -/
theorem C2_policy_dataset_witness :
    mcts_sample_enable ({ c2_state with mcts_enable := false }) = false ∧
    (play ({ c2_state with mcts_enable := false }) 2 c2_inp0).1.policy_trajectory_actions
      = asarray c2_inp0.master.trajectory_actions .f32 :=
  ⟨by decide,
   ((C2_policy_dataset ({ c2_state with mcts_enable := false }) 2 c2_inp0).1
      (by decide)).2.1⟩

/-- Counterexample to C2 as stated: at sampling step 1 (eligible window
starting at 0, collection frequency 2) the gate fails, `play` completes,
and the Policy Dataset still holds the step-0 actions `[7, 7]` instead
of the current primary rollout's `[5, 5]`. -/
theorem C2_stale_policy_counterexample :
    (play (play c2_state 2 c2_inp0).1 2 c2_inp1).1.policy_trajectory_actions
        = ⟨.f32, [7, 7]⟩ ∧
    (play (play c2_state 2 c2_inp0).1 2 c2_inp1).1.policy_trajectory_actions
        ≠ asarray c2_inp1.master.trajectory_actions .f32 := by
  refine ⟨by decide, ?_⟩
  decide

/-- C8: on a `play` call where `mcts_sample_enable()` is true but the
frequency gate fails, all eleven `trajectory_*` attributes and the
`mcts_sampling` flag keep exactly the values they held before the
call. -/
theorem C8_gated_off_frame (s : PEState σ α) (m : Nat) (inp : PlayInput σ α)
    (he : mcts_sample_enable s = true) (hg : collect_gate s = false) :
    (play s m inp).1.trajectory_states = s.trajectory_states ∧
    (play s m inp).1.trajectory_actions = s.trajectory_actions ∧
    (play s m inp).1.trajectory_values = s.trajectory_values ∧
    (play s m inp).1.trajectory_neg_logprobs = s.trajectory_neg_logprobs ∧
    (play s m inp).1.trajectory_means = s.trajectory_means ∧
    (play s m inp).1.trajectory_logstds = s.trajectory_logstds ∧
    (play s m inp).1.trajectory_per_episode_rewards
      = s.trajectory_per_episode_rewards ∧
    (play s m inp).1.trajectory_per_episode_lengths
      = s.trajectory_per_episode_lengths ∧
    (play s m inp).1.trajectory_dones = s.trajectory_dones ∧
    (play s m inp).1.trajectory_per_step_rewards
      = s.trajectory_per_step_rewards ∧
    (play s m inp).1.trajectory_returns = s.trajectory_returns ∧
    (play s m inp).1.mcts_sampling = s.mcts_sampling := by
  have he' : ¬ (mcts_sample_enable s = false) := by rw [he]; simp
  have hg' : ¬ (collect_gate (rms_handoff_update s) = true) := by
    rw [collect_gate_handoff, hg]; simp
  simp only [play]
  rw [if_neg he', if_neg hg']
  unfold rms_handoff_update
  by_cases hf : s.first_mcts = true
  · rw [if_pos hf]
    exact ⟨rfl, rfl, rfl, rfl, rfl, rfl, rfl, rfl, rfl, rfl, rfl, rfl⟩
  · rw [if_neg hf]
    exact ⟨rfl, rfl, rfl, rfl, rfl, rfl, rfl, rfl, rfl, rfl, rfl, rfl⟩

/-- Witness for C8: the step-1 state of the C2 scenario (eligible, gate
fails) keeps its current-step actions and flag across `play`. -/
theorem C8_gated_off_frame_witness :
    mcts_sample_enable (play c2_state 2 c2_inp0).1 = true ∧
    collect_gate (play c2_state 2 c2_inp0).1 = false ∧
    (play (play c2_state 2 c2_inp0).1 2 c2_inp1).1.trajectory_actions
      = (play c2_state 2 c2_inp0).1.trajectory_actions ∧
    (play (play c2_state 2 c2_inp0).1 2 c2_inp1).1.mcts_sampling
      = (play c2_state 2 c2_inp0).1.mcts_sampling :=
  ⟨by decide, by decide,
   (C8_gated_off_frame (play c2_state 2 c2_inp0).1 2 c2_inp1
      (by decide) (by decide)).2.1,
   (C8_gated_off_frame (play c2_state 2 c2_inp0).1 2 c2_inp1
      (by decide) (by decide)).2.2.2.2.2.2.2.2.2.2.2⟩

/-! ## C6 / C7 — scheduling window and one-time hand-off -/

/-- The hand-off update always leaves the guard cleared (it either
clears it or it was already clear). -/
theorem rms_handoff_update_first (s : PEState σ α) :
    (rms_handoff_update s).first_mcts = false := by
  unfold rms_handoff_update
  by_cases hf : s.first_mcts = true
  · rw [if_pos hf]
  · rw [if_neg hf]
    simpa using hf

/-- Scheduling fields survive the hand-off update. -/
theorem rms_handoff_update_proj (s : PEState σ α) :
    (rms_handoff_update s).sampling_step = s.sampling_step ∧
    (rms_handoff_update s).mcts_start_step = s.mcts_start_step ∧
    (rms_handoff_update s).mcts_end_step = s.mcts_end_step ∧
    (rms_handoff_update s).mcts_enable = s.mcts_enable ∧
    (rms_handoff_update s).mcts_collect_data_freq
      = s.mcts_collect_data_freq ∧
    (rms_handoff_update s).len_segment = s.len_segment := by
  unfold rms_handoff_update
  by_cases hf : s.first_mcts = true
  · rw [if_pos hf]; exact ⟨rfl, rfl, rfl, rfl, rfl, rfl⟩
  · rw [if_neg hf]; exact ⟨rfl, rfl, rfl, rfl, rfl, rfl⟩

/-- One `play` call: the step counter advances by one, the configuration
fields never change, the one-shot guard is cleared exactly when the step
was eligible, and the hand-off event fires iff the step is eligible and
the guard was still set. -/
theorem play_proj (s : PEState σ α) (m : Nat) (inp : PlayInput σ α) :
    (play s m inp).1.sampling_step = s.sampling_step + 1 ∧
    (play s m inp).1.mcts_start_step = s.mcts_start_step ∧
    (play s m inp).1.mcts_end_step = s.mcts_end_step ∧
    (play s m inp).1.mcts_enable = s.mcts_enable ∧
    (play s m inp).1.mcts_collect_data_freq = s.mcts_collect_data_freq ∧
    (play s m inp).1.len_segment = s.len_segment ∧
    (play s m inp).1.first_mcts
      = (s.first_mcts && !(mcts_sample_enable s)) ∧
    (play s m inp).2.rms_handoff = (mcts_sample_enable s && s.first_mcts) := by
  obtain ⟨hr1, hr2, hr3, hr4, hr5, hr6⟩ := rms_handoff_update_proj s
  have hrf := rms_handoff_update_first s
  by_cases he : mcts_sample_enable s = false
  · simp only [play]
    rw [if_pos he]
    refine ⟨rfl, rfl, rfl, rfl, rfl, rfl, ?_, ?_⟩
    · show s.first_mcts = (s.first_mcts && !(mcts_sample_enable s))
      rw [he]; simp
    · show false = (mcts_sample_enable s && s.first_mcts)
      rw [he]; simp
  · have he' : mcts_sample_enable s = true := by
      cases h : mcts_sample_enable s
      · exact absurd h he
      · rfl
    by_cases hg : collect_gate (rms_handoff_update s) = true
    · simp only [play]
      rw [if_neg he, if_pos hg]
      obtain ⟨hf1, hf2, hf3, hf4, hf5, hf6, hf7, hf8, _⟩ :=
        aggregate_fold_proj inp.master
          ((sub_span_plan
            (process_trajectory_lengths inp.master.trajectory_dones
              inp.master.trajectory_per_episode_lengths m)
            ({ init_policy_episode_data (init_episode_data
                (rms_handoff_update s)) with
                mcts_sampling := true } : PEState σ α).len_segment.toNat
            0).map fun p =>
              inp.mcts_run (inp.env_states.getD p.1 inp.default_state)
                (inp.master.trajectory_actions.getD p.1 inp.default_action)
                p.2)
          ({ init_policy_episode_data (init_episode_data
              (rms_handoff_update s)) with mcts_sampling := true })
      refine ⟨?_, ?_, ?_, ?_, ?_, ?_, ?_, ?_⟩
      · show (aggregate_fold _ inp.master _).sampling_step + 1
          = s.sampling_step + 1
        rw [hf2]; exact congrArg (· + 1) hr1
      · show (aggregate_fold _ inp.master _).mcts_start_step
          = s.mcts_start_step
        rw [hf3]; exact hr2
      · show (aggregate_fold _ inp.master _).mcts_end_step = s.mcts_end_step
        rw [hf4]; exact hr3
      · show (aggregate_fold _ inp.master _).mcts_enable = s.mcts_enable
        rw [hf5]; exact hr4
      · show (aggregate_fold _ inp.master _).mcts_collect_data_freq
          = s.mcts_collect_data_freq
        rw [hf7]; exact hr5
      · show (aggregate_fold _ inp.master _).len_segment = s.len_segment
        rw [hf1]; exact hr6
      · show (aggregate_fold _ inp.master _).first_mcts
          = (s.first_mcts && !(mcts_sample_enable s))
        rw [hf8]
        show (rms_handoff_update s).first_mcts
          = (s.first_mcts && !(mcts_sample_enable s))
        rw [hrf, he']
        simp
      · show s.first_mcts = (mcts_sample_enable s && s.first_mcts)
        rw [he']
        simp
    · simp only [play]
      rw [if_neg he, if_neg hg]
      refine ⟨?_, hr2, hr3, hr4, hr5, hr6, ?_, ?_⟩
      · show (rms_handoff_update s).sampling_step + 1 = s.sampling_step + 1
        rw [hr1]
      · show (rms_handoff_update s).first_mcts
          = (s.first_mcts && !(mcts_sample_enable s))
        rw [hrf, he']
        simp
      · show s.first_mcts = (mcts_sample_enable s && s.first_mcts)
        rw [he']
        simp

/-- Eligibility at a named step is invariant under `play` (the window is
fixed at construction). -/
theorem eligible_at_play (s : PEState σ α) (m : Nat) (inp : PlayInput σ α)
    (k : Nat) : eligible_at (play s m inp).1 k = eligible_at s k := by
  obtain ⟨_, h2, h3, h4, _, _, _, _⟩ := play_proj s m inp
  unfold eligible_at
  rw [h2, h3, h4]

/-- Across a sequence of `play` calls, the hand-off event of the `k`-th
call fires iff the guard was initially set, step `sampling_step + k` is
eligible, and no earlier call in the sequence was eligible. -/
theorem play_trace_handoff (m : Nat) :
    ∀ (inps : List (PlayInput σ α)) (s : PEState σ α) (k : Nat),
      k < inps.length →
      (play_trace s m inps).2.getD k false =
        (s.first_mcts && eligible_at s (s.sampling_step + k) &&
          decide (∀ j < k, eligible_at s (s.sampling_step + j) = false)) := by
  intro inps
  induction inps with
  | nil => intro s k hk; simp at hk
  | cons inp rest ih =>
    intro s k hk
    cases k with
    | zero =>
      show (play s m inp).2.rms_handoff = _
      rw [(play_proj s m inp).2.2.2.2.2.2.2]
      have hd : (∀ j < 0, eligible_at s (s.sampling_step + j) = false) := by
        intro j hj; exact absurd hj (Nat.not_lt_zero j)
      simp only [Nat.add_zero, decide_eq_true hd, Bool.and_true]
      rw [show mcts_sample_enable s = eligible_at s s.sampling_step from rfl,
          Bool.and_comm]
    | succ k' =>
      show (play_trace (play s m inp).1 m rest).2.getD k' false = _
      have hk' : k' < rest.length := by simpa using hk
      rw [ih (play s m inp).1 k' hk']
      obtain ⟨hstep, h2, h3, h4, _, _, hfirst, _⟩ := play_proj s m inp
      have helig : ∀ n, eligible_at (play s m inp).1 n = eligible_at s n := by
        intro n; unfold eligible_at; rw [h2, h3, h4]
      simp only [hstep, hfirst, helig]
      rw [show mcts_sample_enable s = eligible_at s s.sampling_step from rfl]
      cases hsf : s.first_mcts
      · simp
      · simp only [Bool.true_and]
        rcases he0 : eligible_at s s.sampling_step with _ | _
        · simp only [Bool.not_false, Bool.true_and]
          have hidx : s.sampling_step + 1 + k' = s.sampling_step + (k' + 1) := by
            omega
          rw [hidx]
          congr 1
          rw [decide_eq_decide]
          constructor
          · intro h j hj
            cases j with
            | zero => simpa using he0
            | succ j' =>
              have := h j' (by omega)
              rwa [show s.sampling_step + 1 + j' = s.sampling_step + (j' + 1)
                from by omega] at this
          · intro h j hj
            have := h (j + 1) (by omega)
            rwa [show s.sampling_step + (j + 1) = s.sampling_step + 1 + j
              from by omega] at this
        · simp only [Bool.not_true, Bool.false_and]
          symm
          have : (decide (∀ j < k' + 1,
              eligible_at s (s.sampling_step + j) = false)) = false := by
            simp only [decide_eq_false_iff_not]
            intro h
            have := h 0 (by omega)
            rw [Nat.add_zero] at this
            rw [this] at he0
            exact Bool.false_ne_true he0
          rw [this, Bool.and_false]

/-- C7: over any sequence of `play` calls on a freshly constructed
orchestrator (guard set, step counter zero), the statistics hand-off
executes on exactly the first call whose step is eligible: the `k`-th
call's hand-off event fires iff step `k` is eligible and no step before
`k` was. -/
theorem C7_one_time_handoff (s : PEState σ α) (m : Nat)
    (inps : List (PlayInput σ α)) (k : Nat)
    (hfirst : s.first_mcts = true) (hstep : s.sampling_step = 0)
    (hk : k < inps.length) :
    ((play_trace s m inps).2.getD k false = true ↔
      (eligible_at s k = true ∧ ∀ j < k, eligible_at s j = false)) := by
  rw [play_trace_handoff m inps s k hk, hfirst, hstep]
  simp [Bool.and_eq_true, decide_eq_true_eq]

/-- A freshly constructed orchestrator whose eligibility window is
`[1, 3)` with collection frequency 1. -/
def c7_state : PEState Nat Nat :=
  { len_segment := 1
    sampling_step := 0
    mcts_start_step := 1
    mcts_end_step := 3
    mcts_enable := true
    mcts_sampling := false
    mcts_collect_data_freq := 1
    first_mcts := true
    master_ob_rms := 0
    master_ret_rms := 1
    mcts_ob_rms := 2
    mcts_ret_rms := 3
    trajectory_states := emptyArr
    trajectory_actions := emptyArr
    trajectory_values := emptyArr
    trajectory_neg_logprobs := emptyArr
    trajectory_means := emptyArr
    trajectory_logstds := emptyArr
    trajectory_per_episode_rewards := emptyArr
    trajectory_per_episode_lengths := emptyArr
    trajectory_dones := emptyArr
    trajectory_per_step_rewards := emptyArr
    trajectory_returns := emptyArr
    policy_trajectory_states := emptyArr
    policy_trajectory_values := emptyArr
    policy_trajectory_actions := emptyArr
    policy_trajectory_returns := emptyArr
    policy_trajectory_neg_logprobs := emptyArr
    policy_trajectory_per_step_rewards := emptyArr }

/-- The play input used for the C7 witness (two-step primary rollout,
empty search oracle). -/
def c7_inp : PlayInput Nat Nat :=
  { master :=
      { trajectory_states := [10, 11]
        trajectory_actions := [7, 7]
        trajectory_values := [0, 0]
        trajectory_neg_logprobs := [0, 0]
        trajectory_means := [0, 0]
        trajectory_logstds := [0, 0]
        trajectory_per_episode_rewards := []
        trajectory_per_episode_lengths := []
        trajectory_dones := [false, false]
        trajectory_per_step_rewards := [1, 1]
        trajectory_returns := [2, 2] }
    env_states := [100, 101]
    mcts_run := fun _ _ _ => GameBuffer.empty
    default_state := 0
    default_action := 0 }

/-- Witness for C7: on three plays from `c7_state`, the hand-off event
of call 1 fires iff step 1 is eligible and step 0 is not. -/
theorem C7_one_time_handoff_witness :
    c7_state.first_mcts = true ∧ c7_state.sampling_step = 0 ∧
    1 < ([c7_inp, c7_inp, c7_inp] : List (PlayInput Nat Nat)).length ∧
    ((play_trace c7_state 2 [c7_inp, c7_inp, c7_inp]).2.getD 1 false = true ↔
      (eligible_at c7_state 1 = true ∧
        ∀ j < 1, eligible_at c7_state j = false)) :=
  ⟨by decide, by decide, by decide,
   C7_one_time_handoff c7_state 2 [c7_inp, c7_inp, c7_inp] 1
     (by decide) (by decide) (by decide)⟩

/-- C6 (amended): the window bounds are computed exactly once at
construction as `int(frac × num_iterations)` — Python `int()` truncation,
not `round()` — never change across `play` calls, and search eligibility
is true iff `mcts_enable` is set and the sampling step lies in
`[mcts_start_step, mcts_end_step)`. -/
theorem C6_schedule_window (cfg : Config) :
    (parallel_env_init cfg : PEState σ α).mcts_start_step
      = pyInt (cfg.mcts_start_step_frac * cfg.num_iterations) ∧
    (parallel_env_init cfg : PEState σ α).mcts_end_step
      = pyInt (cfg.mcts_end_step_frac * cfg.num_iterations) ∧
    (∀ (s : PEState σ α) (m : Nat) (inp : PlayInput σ α),
      (play s m inp).1.mcts_start_step = s.mcts_start_step ∧
      (play s m inp).1.mcts_end_step = s.mcts_end_step ∧
      (play s m inp).1.mcts_enable = s.mcts_enable) ∧
    (∀ s : PEState σ α, mcts_sample_enable s = true ↔
      (s.mcts_enable = true ∧ s.mcts_start_step ≤ (s.sampling_step : Int) ∧
        (s.sampling_step : Int) < s.mcts_end_step)) := by
  refine ⟨rfl, rfl, ?_, ?_⟩
  · intro s m inp
    obtain ⟨_, h2, h3, h4, _, _, _, _⟩ := play_proj s m inp
    exact ⟨h2, h3, h4⟩
  · intro s
    unfold mcts_sample_enable
    simp [Bool.and_eq_true, decide_eq_true_eq]

/-- The configuration of the C6 counterexample:
`mcts_start_step_frac = 3/4`, `num_iterations = 2`, so
`frac × num_iterations = 3/2` — `int()` gives 1 where `round()`
gives 2. -/
def c6_cfg : Config :=
  { len_segment := 1
    mcts_enable := true
    mcts_start_step_frac := 3/4
    mcts_end_step_frac := 5
    num_iterations := 2
    mcts_collect_data_freq := 1 }

/-- Counterexample to C6 as stated: with `mcts_start_step_frac = 3/4`
and `num_iterations = 2` the source computes `mcts_start_step =
int(1.5) = 1`, not `round(1.5) = 2`; at sampling step 1 the code is
eligible although the round-based window of the claim starts at 2. -/
theorem C6_trunc_vs_round_counterexample :
    (parallel_env_init c6_cfg : PEState Nat Nat).mcts_start_step = 1 ∧
    pyRound (c6_cfg.mcts_start_step_frac * c6_cfg.num_iterations) = 2 ∧
    mcts_sample_enable
      ({ (parallel_env_init c6_cfg : PEState Nat Nat) with
         sampling_step := 1 }) = true ∧
    ¬ (pyRound (c6_cfg.mcts_start_step_frac * c6_cfg.num_iterations)
        ≤ ((1 : Nat) : Int)) := by
  have hq : c6_cfg.mcts_start_step_frac * (c6_cfg.num_iterations : ℚ)
      = 3/2 := by
    show (3/4 : ℚ) * ((2 : Nat) : ℚ) = 3/2
    push_cast
    norm_num
  have h1 : (parallel_env_init c6_cfg : PEState Nat Nat).mcts_start_step
      = 1 := by
    show pyInt (c6_cfg.mcts_start_step_frac * (c6_cfg.num_iterations : ℚ)) = 1
    rw [hq]
    unfold pyInt
    rw [if_neg (by norm_num)]
    norm_num
  have hround : pyRound (c6_cfg.mcts_start_step_frac
      * (c6_cfg.num_iterations : ℚ)) = 2 := by
    rw [hq]
    unfold pyRound
    have hf : ⌊(3/2 : ℚ)⌋ = 1 := by norm_num
    rw [hf]
    rw [if_neg (by norm_num), if_neg (by norm_num), if_neg (by norm_num)]
    norm_num
  have hq2 : c6_cfg.mcts_end_step_frac * (c6_cfg.num_iterations : ℚ)
      = 10 := by
    show (5 : ℚ) * ((2 : Nat) : ℚ) = 10
    push_cast
    norm_num
  have h2 : (parallel_env_init c6_cfg : PEState Nat Nat).mcts_end_step
      = 10 := by
    show pyInt (c6_cfg.mcts_end_step_frac * (c6_cfg.num_iterations : ℚ)) = 10
    rw [hq2]
    unfold pyInt
    rw [if_neg (by norm_num)]
    norm_num
  refine ⟨h1, hround, ?_, ?_⟩
  · have hs1 : ({ (parallel_env_init c6_cfg : PEState Nat Nat) with
        sampling_step := 1 }).mcts_start_step = 1 := h1
    have hs2 : ({ (parallel_env_init c6_cfg : PEState Nat Nat) with
        sampling_step := 1 }).mcts_end_step = 10 := h2
    unfold mcts_sample_enable
    rw [hs1, hs2]
    decide
  · rw [hround]
    decide

/-! ## C9 — construction performs no validation -/

/-- Truncation toward zero is monotone on the nonnegative rationals. -/
theorem pyInt_mono_nonneg (a b : ℚ) (ha : 0 ≤ a) (hab : a ≤ b) :
    pyInt a ≤ pyInt b := by
  unfold pyInt
  rw [if_neg (not_lt.2 ha), if_neg (not_lt.2 (ha.trans hab))]
  exact Int.floor_le_floor hab

/-- C9 (amended): construction never fails on configuration values — it
performs no validation and stores the configuration verbatim, including
a non-positive `len_segment`; when `mcts_start_step_frac ≥
mcts_end_step_frac` (both nonnegative) the resulting window is empty, so
search is never eligible at any step, rather than an error being
raised. -/
theorem C9_no_validation (cfg : Config)
    (hfrac : cfg.mcts_end_step_frac ≤ cfg.mcts_start_step_frac)
    (hnn : 0 ≤ cfg.mcts_end_step_frac) :
    (parallel_env_init cfg : PEState σ α).len_segment = cfg.len_segment ∧
    (parallel_env_init cfg : PEState σ α).mcts_start_step
      = pyInt (cfg.mcts_start_step_frac * cfg.num_iterations) ∧
    (parallel_env_init cfg : PEState σ α).mcts_end_step
      = pyInt (cfg.mcts_end_step_frac * cfg.num_iterations) ∧
    (∀ k : Nat, eligible_at (parallel_env_init cfg : PEState σ α) k
      = false) := by
  refine ⟨rfl, rfl, rfl, ?_⟩
  intro k
  have hnk : (0 : ℚ) ≤ (cfg.num_iterations : ℚ) := by positivity
  have hmul : cfg.mcts_end_step_frac * cfg.num_iterations
      ≤ cfg.mcts_start_step_frac * cfg.num_iterations :=
    mul_le_mul_of_nonneg_right hfrac hnk
  have hnn' : 0 ≤ cfg.mcts_end_step_frac * cfg.num_iterations :=
    mul_nonneg hnn hnk
  have hwin : pyInt (cfg.mcts_end_step_frac * cfg.num_iterations)
      ≤ pyInt (cfg.mcts_start_step_frac * cfg.num_iterations) :=
    pyInt_mono_nonneg _ _ hnn' hmul
  unfold eligible_at
  have hw : ¬ ((parallel_env_init cfg : PEState σ α).mcts_start_step
      ≤ (k : Int) ∧
      (k : Int) < (parallel_env_init cfg : PEState σ α).mcts_end_step) := by
    rintro ⟨hle, hlt⟩
    have h1 : (parallel_env_init cfg : PEState σ α).mcts_end_step
        ≤ (parallel_env_init cfg : PEState σ α).mcts_start_step := hwin
    omega
  simp [hw]

/-- Witness for C9 at an invalid configuration: equal fractions and
`len_segment = 0`. -/
theorem C9_no_validation_witness :
    (⟨0, true, 1, 1, 5, 1⟩ : Config).mcts_end_step_frac
      ≤ (⟨0, true, 1, 1, 5, 1⟩ : Config).mcts_start_step_frac ∧
    (0 : ℚ) ≤ (⟨0, true, 1, 1, 5, 1⟩ : Config).mcts_end_step_frac ∧
    ((parallel_env_init ⟨0, true, 1, 1, 5, 1⟩ : PEState Nat Nat).len_segment
        = (⟨0, true, 1, 1, 5, 1⟩ : Config).len_segment ∧
      (parallel_env_init ⟨0, true, 1, 1, 5, 1⟩ : PEState Nat Nat).mcts_start_step
        = pyInt ((⟨0, true, 1, 1, 5, 1⟩ : Config).mcts_start_step_frac
            * (⟨0, true, 1, 1, 5, 1⟩ : Config).num_iterations) ∧
      (parallel_env_init ⟨0, true, 1, 1, 5, 1⟩ : PEState Nat Nat).mcts_end_step
        = pyInt ((⟨0, true, 1, 1, 5, 1⟩ : Config).mcts_end_step_frac
            * (⟨0, true, 1, 1, 5, 1⟩ : Config).num_iterations) ∧
      (∀ k : Nat, eligible_at
        (parallel_env_init ⟨0, true, 1, 1, 5, 1⟩ : PEState Nat Nat) k
          = false)) :=
  ⟨le_refl _, zero_le_one,
   C9_no_validation ⟨0, true, 1, 1, 5, 1⟩ (le_refl _) zero_le_one⟩

/-- The invalid configuration of the C9 counterexample:
`mcts_start_step_frac = 1/2 > 1/4 = mcts_end_step_frac` and
`len_segment = 0`. -/
def c9_cfg : Config :=
  { len_segment := 0
    mcts_enable := true
    mcts_start_step_frac := 1/2
    mcts_end_step_frac := 1/4
    num_iterations := 100
    mcts_collect_data_freq := 1 }

/-- Counterexample to C9 as stated: construction with an inverted window
and a non-positive `len_segment` completes normally — no error is
raised — and the invalid values are stored (`len_segment = 0`,
`mcts_start_step = 50 > 25 = mcts_end_step`). -/
theorem C9_no_failfast_counterexample :
    (parallel_env_init c9_cfg : PEState Nat Nat).len_segment = 0 ∧
    (parallel_env_init c9_cfg : PEState Nat Nat).mcts_start_step = 50 ∧
    (parallel_env_init c9_cfg : PEState Nat Nat).mcts_end_step = 25 := by
  refine ⟨rfl, ?_, ?_⟩
  · show pyInt (c9_cfg.mcts_start_step_frac * (c9_cfg.num_iterations : ℚ)) = 50
    have hq : c9_cfg.mcts_start_step_frac * (c9_cfg.num_iterations : ℚ)
        = 50 := by
      show (1/2 : ℚ) * ((100 : Nat) : ℚ) = 50
      push_cast
      norm_num
    rw [hq]
    unfold pyInt
    rw [if_neg (by norm_num)]
    norm_num
  · show pyInt (c9_cfg.mcts_end_step_frac * (c9_cfg.num_iterations : ℚ)) = 25
    have hq : c9_cfg.mcts_end_step_frac * (c9_cfg.num_iterations : ℚ)
        = 25 := by
      show (1/4 : ℚ) * ((100 : Nat) : ℚ) = 25
      push_cast
      norm_num
    rw [hq]
    unfold pyInt
    rw [if_neg (by norm_num)]
    norm_num

end Polish
